import Mathlib

/-!
Verification of the SDK sample generator (generate_sdk_samples.py).

Strings of the Python source are modelled as List Char. Each definition
below is a direct translation of the correspondingly named Python
function; helper definitions model single Python expressions or methods
(split, strip, replace, lower, re.search of the fixed pattern).
-/

/-- Model of the Python expression s.split(c) for a single character
separator: splits on every occurrence, keeping empty pieces, and maps
the empty string to a one element list holding the empty string. -/
def splitOnChar (c : Char) : List Char → List (List Char)
  | [] => [[]]
  | a :: rest =>
    match splitOnChar c rest with
    | [] => [[]]
    | g :: gs => if a = c then [] :: g :: gs else (a :: g) :: gs

/-- Model of the Python expression path.strip(sep) for one character:
removes every leading and trailing occurrence of the character. -/
def pyStripChar (c : Char) (s : List Char) : List Char :=
  ((s.dropWhile (fun a => a = c)).reverse.dropWhile (fun a => a = c)).reverse

/-- Model of the Python method str.lower restricted to ASCII letters,
which is all the source ever lowercases (HTTP verbs). -/
def pyLowerChar (c : Char) : Char :=
  if 'A' ≤ c ∧ c ≤ 'Z' then Char.ofNat (c.toNat + 32) else c

/-- Model of str.lower on a whole string. -/
def pyLower (s : List Char) : List Char := s.map pyLowerChar

/-- First occurrence of pat in s, returning the text before it and the
text after it; none when pat does not occur. Models str.find and the
first two fields of str.split(pat). -/
def splitFirstSub (pat : List Char) : List Char → Option (List Char × List Char)
  | [] => if pat = [] then some ([], []) else none
  | c :: rest =>
    if pat.isPrefixOf (c :: rest) then some ([], (c :: rest).drop pat.length)
    else
      match splitFirstSub pat rest with
      | some (pre, post) => some (c :: pre, post)
      | none => none

/-- Substring containment, modelling the Python operator pat in s. -/
def containsSub (pat s : List Char) : Bool := (splitFirstSub pat s).isSome

/-- Fueled worker for pyReplace; the fuel is consumed once per examined
position, and the original string length is always enough fuel. -/
def pyReplaceAux (pat : List Char) : Nat → List Char → List Char
  | _, [] => []
  | 0, s => s
  | fuel + 1, c :: rest =>
    if pat ≠ [] ∧ pat.isPrefixOf (c :: rest) then
      pyReplaceAux pat fuel ((c :: rest).drop pat.length)
    else
      c :: pyReplaceAux pat fuel rest

/-- Model of the Python expression s.replace(pat, two quotes): deletes
every non overlapping occurrence of pat, scanning left to right; with
an empty pattern the string is returned unchanged, as in Python. -/
def pyReplace (pat s : List Char) : List Char := pyReplaceAux pat s.length s

/-- Pass one of clean_filename: when the literal substring actions is
present, the name is rebuilt as the text before the first occurrence
followed by what stands between the first occurrence and the first of
the next underscore, the next occurrence, or the end of the name. -/
def actionsPass (s : List Char) : List Char :=
  match splitFirstSub ("actions".data) s with
  | none => s
  | some (pre, post) =>
    let part1 :=
      match splitFirstSub ("actions".data) post with
      | none => post
      | some (p2, _) => p2
    pre ++ part1.takeWhile (fun c => c ≠ '_')

/-- Advance to the character after the first closing brace, as the
regex piece that closes the bracket group does. -/
def braceClose : List Char → Option (List Char)
  | [] => none
  | c :: rest => if c = '}' then some rest else braceClose rest

/-- Inside a bracket group the regex needs at least one character that
is not a closing brace before the closing brace. -/
def braceInner : List Char → Option (List Char)
  | [] => none
  | c :: rest => if c = '}' then none else braceClose rest

/-- The text after the leftmost match of the regex for a brace token
with a non empty interior; none when the regex does not match. This
models re.search scanning candidate start positions left to right. -/
def braceRest : List Char → Option (List Char)
  | [] => none
  | c :: rest =>
    if c = '{' then
      match braceInner rest with
      | some after => some after
      | none => braceRest rest
    else braceRest rest

/-- The captured group of the regex search in clean_filename: the text
after the first brace token, stopping at a newline because the dot of
the regex does not cross newlines. -/
def regexSuffix (s : List Char) : Option (List Char) :=
  (braceRest s).map (fun r => r.takeWhile (fun c => c ≠ '\n'))

/-- Pass two of clean_filename: when the brace regex matches, every
occurrence of the captured trailing text is deleted from the name. -/
def bracePass (s : List Char) : List Char :=
  match regexSuffix s with
  | none => s
  | some suf => pyReplace suf s

/-- Translation of clean_filename from the source: the actions pass
followed by the brace pass. -/
def clean_filename (s : List Char) : List Char := bracePass (actionsPass s)

/-- Insertion into the parameter dictionary of parse_endpoint_path: a
Python dict keyed by the parameter name, whose value is always the
name itself, so it is modelled as the list of names in first insertion
order without duplicates. -/
def insertParamName (ps : List (List Char)) (n : List Char) : List (List Char) :=
  if n ∈ ps then ps else ps ++ [n]

/-- Loop body of parse_endpoint_path: a segment holding both an opening
and a closing brace is recorded as a parameter named by the segment
minus its first and last character, and that name is also appended to
the resource parts; any other segment is appended literally. -/
def parseStep (acc : List (List Char) × List (List Char)) (part : List Char) :
    List (List Char) × List (List Char) :=
  if part.contains '{' && part.contains '}' then
    (acc.1 ++ [(part.drop 1).dropLast], insertParamName acc.2 ((part.drop 1).dropLast))
  else
    (acc.1 ++ [part], acc.2)

/-- Translation of parse_endpoint_path from the source: strip slashes,
split on slash, and fold the loop body over the segments, returning
the resource parts and the parameter names. -/
def parse_endpoint_path (path : List Char) : List (List Char) × List (List Char) :=
  (splitOnChar '/' (pyStripChar '/' path)).foldl parseStep ([], [])

/-- Translation of the constant HTTP_TO_SDK from the source. -/
def HTTP_TO_SDK (m : List Char) : List (List Char) :=
  if m = ("get".data) then [("retrieve".data), ("list".data)]
  else if m = ("post".data) then [("create".data)]
  else if m = ("patch".data) then [("update".data)]
  else if m = ("put".data) then [("update".data)]
  else if m = ("delete".data) then [("del".data)]
  else []

/-- Translation of determine_sdk_method from the source: lowercase the
verb, look it up, answer list for a get whose raw path holds no segment
containing an opening brace, otherwise the first candidate, with create
as the fallback for an unknown verb. -/
def determine_sdk_method (http_method endpoint_path : List Char) : List Char :=
  let ml := pyLower http_method
  let possible := HTTP_TO_SDK ml
  if ml = ("get".data) ∧ (splitOnChar '/' endpoint_path).any (fun part => part.contains '{') = false then
    ("list".data)
  else
    match possible with
    | [] => ("create".data)
    | m₀ :: _ => m₀

/-- JSON scalar values a request body may hold, as Python sees them
after json.loads; collections are not needed by any claim. -/
inductive PyVal where
  | str (s : List Char)
  | int (n : Int)
  | bool (b : Bool)
  | null
deriving DecidableEq

/-- Test used by the renderer, modelling isinstance(value, str). -/
def PyVal.isStrVal : PyVal → Bool
  | .str _ => true
  | _ => false

/-- Model of the Python f string conversion str(value). -/
def pyStr : PyVal → List Char
  | .str s => s
  | .int n => (toString n).data
  | .bool true => ("True".data)
  | .bool false => ("False".data)
  | .null => ("None".data)

/-- The request member of a sample document. -/
structure RequestPart where
  body : Option (List (List Char × PyVal))
deriving DecidableEq

/-- A parsed sample document: the three top level members the source
reads, each optional because the source supplies defaults. -/
structure Sample where
  method : Option (List Char)
  path : Option (List Char)
  request : Option RequestPart
deriving DecidableEq

/-- Outcome of json.loads on a sample file: either a parsed document or
the text of the raised error. -/
def SampleParse := Except (List Char) Sample

/-- The body extraction sample_data.get(request, empty).get(body,
empty) from the source: any missing level yields the empty mapping. -/
def sampleBody (s : Sample) : List (List Char × PyVal) :=
  match s.request with
  | none => []
  | some r => r.body.getD []

/-- One parameter assignment line of the renderer. -/
def param_assign_line (n : List Char) : List Char :=
  n ++ (" = \x27your_".data) ++ n ++ ("\x27".data)

/-- One request body line of the renderer: a textual value is wrapped
in single quotes, any other value is printed natively. -/
def body_param_line (kv : List Char × PyVal) : List Char :=
  if kv.2.isStrVal then
    ("    ".data) ++ kv.1 ++ ("=\x27".data) ++ pyStr kv.2 ++ ("\x27".data)
  else
    ("    ".data) ++ kv.1 ++ ("=".data) ++ pyStr kv.2

/-- The keyword argument list of the call, joining name=name pairs. -/
def param_str (params : List (List Char)) : List Char :=
  List.intercalate (", ".data) (params.map (fun n => n ++ ("=".data) ++ n))

/-- The join of the resource parts that do not start with an opening
brace, as computed by generate_sdk_code. -/
def resource_path_of (path : List Char) : List Char :=
  List.intercalate ("_".data)
    (((parse_endpoint_path path).1).filter (fun part => !(['{'].isPrefixOf part)))

/-- The parameter names parse_endpoint_path extracts from a path. -/
def params_of (path : List Char) : List (List Char) := (parse_endpoint_path path).2

/-- The hyphen to underscore rewrite applied to the resource path. -/
def hyphen_to_underscore (s : List Char) : List Char :=
  s.map (fun c => if c = '-' then '_' else c)

/-- Translation of the body of generate_sdk_code on a successfully
parsed document: parameter assignments, the optional params dictionary,
the optional call line, and the closing print line, joined by newlines.
The reference text is accepted and ignored exactly as in the source. -/
def generate_ok (sample : Sample) (reference : List Char) : List Char :=
  let http_method := pyLower (sample.method.getD [])
  let endpoint_path := sample.path.getD []
  let request_body := sampleBody sample
  let params := params_of endpoint_path
  let sdk_method := determine_sdk_method http_method endpoint_path
  let resource_path := resource_path_of endpoint_path
  let lines1 := params.map param_assign_line
  let lines2 :=
    if request_body = [] then []
    else
      let body_params := request_body.map body_param_line
      if body_params = [] then []
      else (("params = \x7b".data) :: body_params) ++ [("\x7d".data)]
  let lines3 :=
    if resource_path = [] then []
    else
      let resource_var := hyphen_to_underscore resource_path
      if params = [] then
        if request_body = [] then
          [("response = telnyx.".data) ++ resource_var ++ (".".data) ++ sdk_method ++ ("()".data)]
        else
          [("response = telnyx.".data) ++ resource_var ++ (".".data) ++ sdk_method ++ ("(**params)".data)]
      else
        if request_body = [] then
          [("response = telnyx.".data) ++ resource_var ++ (".".data) ++ sdk_method
            ++ ("(".data) ++ param_str params ++ (")".data)]
        else
          [("response = telnyx.".data) ++ resource_var ++ (".".data) ++ sdk_method
            ++ ("(".data) ++ param_str params ++ (", **params)".data)]
  List.intercalate ("\n".data) (lines1 ++ lines2 ++ lines3 ++ [("print(response)".data)])

/-- Translation of generate_sdk_code including its try block: a parse
failure, the one fallible step of the model, yields the commented
placeholder line naming the error. -/
def generate_sdk_code (parsed : SampleParse) (reference : List Char) : List Char :=
  match parsed with
  | .ok s => generate_ok s reference
  | .error e => ("# Error generating SDK code: ".data) ++ e

/-- Translation of the constant STANDARD_HEADER from the source. -/
def STANDARD_HEADER : List Char :=
  ("---\nlabel: Python SDK\nlang: Python\n---\nimport telnyx\ntelnyx.api_key = \x22YOUR_API_KEY\x22\n").data

/-- Translation of the constant MAX_FILES, the float infinity, with
none standing for infinity. -/
def MAX_FILES : Option Nat := none

/-- The guard counter greater than MAX_FILES of process_file. -/
def counterExceeds (c : Nat) : Bool :=
  match MAX_FILES with
  | none => false
  | some m => decide (m < c)

/-- The content process_file writes for one sample: the fixed header,
a blank line, and the generated code; none when the counter guard
stops the file. Filesystem errors are outside the model. -/
def process_file_content (counter : Nat) (parsed : SampleParse) (reference : List Char) :
    Option (List Char) :=
  if counterExceeds counter then none
  else some (STANDARD_HEADER ++ ("\n\n".data) ++ generate_sdk_code parsed reference)

/-- The batch loop of main: one task per file, tasks numbered from the
given counter, each producing its own output content. -/
def batchFrom (reference : List Char) : Nat → List SampleParse → List (Option (List Char))
  | _, [] => []
  | c, s :: rest => process_file_content c s reference :: batchFrom reference (c + 1) rest

/-- Spec side classification of a segment, following the parser
description: the wrapped test the code actually performs checks only
that both braces occur somewhere in the segment. -/
def segIsParam (seg : List Char) : Bool := seg.contains '{' && seg.contains '}'

/-- Spec side name extraction: the segment minus its outer characters. -/
def segName (seg : List Char) : List Char := (seg.drop 1).dropLast

/-- A concrete sample used by a witness: post to /messages with one
textual body key. -/
def msgPostSample : Sample :=
  ⟨some ("post".data), some ("/messages".data),
   some ⟨some [(("to".data), PyVal.str ("+15550001111".data))]⟩⟩


/-! Helper lemmas. -/

/-- Replacing the empty pattern changes nothing, as in Python. -/
theorem pyReplaceAux_nil (fuel : Nat) (s : List Char) : pyReplaceAux [] fuel s = s := by
  induction fuel generalizing s with
  | zero => cases s <;> rfl
  | succ f ih => cases s with
    | nil => rfl
    | cons c rest => simp [pyReplaceAux, ih]

/-- Deleting the empty pattern from a string returns it unchanged. -/
theorem pyReplace_nil (s : List Char) : pyReplace [] s = s := pyReplaceAux_nil _ _

/-- The regex scan passes over a prefix holding no opening brace. -/
theorem braceRest_append (P r : List Char) (hP : ('{' : Char) ∉ P) :
    braceRest (P ++ r) = braceRest r := by
  induction P with
  | nil => rfl
  | cons c P ih =>
    have hc : c ≠ '{' := fun h => hP (h ▸ List.mem_cons_self c P)
    have hP' : ('{' : Char) ∉ P := fun h => hP (List.mem_cons_of_mem c h)
    simp [braceRest, hc, ih hP']

/-- Scanning for the closing brace through text free of it stops at the
closing brace and returns what follows. -/
theorem braceClose_append (x S : List Char) (hx : ('}' : Char) ∉ x) :
    braceClose (x ++ '}' :: S) = some S := by
  induction x with
  | nil => simp [braceClose]
  | cons c x ih =>
    have hc : c ≠ '}' := fun h => hx (h ▸ List.mem_cons_self c x)
    have hx' : ('}' : Char) ∉ x := fun h => hx (List.mem_cons_of_mem c h)
    simp [braceClose, hc, ih hx']

/-- takeWhile for inequality keeps a whole list missing the character. -/
theorem takeWhile_ne_of_not_mem (c : Char) (S : List Char) (h : c ∉ S) :
    S.takeWhile (fun a => a ≠ c) = S := by
  induction S with
  | nil => rfl
  | cons b S ih =>
    have hb : b ≠ c := fun hbc => h (hbc ▸ List.mem_cons_self b S)
    have h' : c ∉ S := fun hm => h (List.mem_cons_of_mem b hm)
    simp [List.takeWhile_cons, hb]
    intro x hx hxc
    exact h' (hxc ▸ hx)

/-- The fold of the parser loop splits into a map producing the tokens
and a fold collecting the parameter names. -/
theorem parseStep_foldl (segs : List (List Char)) (a b : List (List Char)) :
    segs.foldl parseStep (a, b) =
      (a ++ segs.map (fun seg => if segIsParam seg then segName seg else seg),
       segs.foldl (fun ps seg => if segIsParam seg then insertParamName ps (segName seg) else ps) b) := by
  induction segs generalizing a b with
  | nil => simp
  | cons seg rest ih =>
    simp only [List.foldl_cons, List.map_cons]
    by_cases h : (seg.contains '{' && seg.contains '}') = true
    · have hstep : parseStep (a, b) seg =
          (a ++ [(seg.drop 1).dropLast], insertParamName b ((seg.drop 1).dropLast)) := by
        unfold parseStep
        rw [if_pos h]
      rw [hstep, ih]
      have hseg : segIsParam seg = true := h
      simp [hseg, segName, List.append_assoc]
    · have hstep : parseStep (a, b) seg = (a ++ [seg], b) := by
        unfold parseStep
        rw [if_neg h]
      rw [hstep, ih]
      have hseg : segIsParam seg = false := by
        cases hc : (seg.contains '{' && seg.contains '}') with
        | false => exact hc
        | true => exact absurd hc h
      simp [hseg, List.append_assoc]

/-! Claim theorems. -/

/-- Claim C1 (code bug): the claim says the target object identifier is
built only from literal path segments, so a get on /messages/{id}
should target telnyx.messages. The code stores parameter names with
their braces already removed, so the startswith brace filter in the
join never excludes them: the rendered call targets telnyx.messages_id
and the claimed call text does not occur in the output. -/
theorem C1_code_eval :
    generate_sdk_code (Except.ok ⟨some ("get".data), some ("/messages/\x7bid\x7d".data), none⟩) []
      = ("id = \x27your_id\x27\nresponse = telnyx.messages_id.retrieve(id=id)\nprint(response)".data)
    ∧ containsSub ("telnyx.messages.retrieve".data)
        (generate_sdk_code (Except.ok ⟨some ("get".data), some ("/messages/\x7bid\x7d".data), none⟩) [])
      = false := by
  decide

/-- Claim C2 counterexample: the segment a followed by a braced b and a
trailing c is not wrapped in braces, so by the claim it should pass
through literally with no parameter; the parser instead treats it as a
parameter because it merely contains both braces, and records the
segment minus its outer characters. -/
theorem C2_cex :
    parse_endpoint_path ("/a\x7bb\x7dc".data) = ([("\x7bb\x7d".data)], [("\x7bb\x7d".data)])
    ∧ parse_endpoint_path ("/a\x7bb\x7dc".data) ≠ ([("a\x7bb\x7dc".data)], []) := by
  decide

/-- Claim C2 (amended): a segment is treated as a parameter exactly
when it contains an opening and a closing brace anywhere; the recorded
name, also used as the token, is the segment minus its first and last
characters, and only segments lacking one of the braces pass through
literally. -/
theorem C2_amended (path : List Char) :
    parse_endpoint_path path =
      ((splitOnChar '/' (pyStripChar '/' path)).map
          (fun seg => if segIsParam seg then segName seg else seg),
       (splitOnChar '/' (pyStripChar '/' path)).foldl
          (fun ps seg => if segIsParam seg then insertParamName ps (segName seg) else ps) []) := by
  unfold parse_endpoint_path
  rw [parseStep_foldl]
  simp

/-- Claim C3 counterexample: the path with single segment a followed by
a lone opening brace has no parameter placeholder and every segment is
literal by the specified parser, so the claim resolves a get to list;
the code tests only for an opening brace and answers retrieve. -/
theorem C3_cex :
    determine_sdk_method ("get".data) ("/a\x7b".data) = ("retrieve".data)
    ∧ determine_sdk_method ("get".data) ("/a\x7b".data) ≠ ("list".data) := by
  decide

/-- Claim C3 (amended): same verb table, but the test deciding between
list and retrieve for a get is whether some slash separated segment of
the raw path contains the opening brace character, not whether it
contains a well formed placeholder. -/
theorem C3_amended (m p : List Char) :
    determine_sdk_method m p =
      (if pyLower m = ("get".data) then
        (if (splitOnChar '/' p).any (fun part => part.contains '{') = true
         then ("retrieve".data) else ("list".data))
      else if pyLower m = ("post".data) then ("create".data)
      else if pyLower m = ("patch".data) then ("update".data)
      else if pyLower m = ("put".data) then ("update".data)
      else if pyLower m = ("delete".data) then ("del".data)
      else ("create".data)) := by
  simp only [determine_sdk_method, HTTP_TO_SDK]
  by_cases hg : pyLower m = ("get".data)
  · cases hA : (splitOnChar '/' p).any (fun part => part.contains '{') with
    | false => simp [hg, hA]
    | true => simp [hg, hA]
  · by_cases h2 : pyLower m = ("post".data)
    · simp [hg, h2]
    · by_cases h3 : pyLower m = ("patch".data)
      · simp [hg, h2, h3]
      · by_cases h4 : pyLower m = ("put".data)
        · simp [hg, h2, h3, h4]
        · by_cases h5 : pyLower m = ("delete".data)
          · simp [hg, h2, h3, h4, h5]
          · simp [hg, h2, h3, h4, h5]

/-- Claim C4 counterexample: cleaning actionactionss once yields the
word actions itself, because the kept pieces rejoin into a fresh
occurrence, and a second cleaning then erases everything, so the
normalizer is not idempotent. -/
theorem C4_cex :
    clean_filename (clean_filename ("actionactionss".data))
      ≠ clean_filename ("actionactionss".data) := by
  decide

/-- Claim C4 (amended): normalization is idempotent only on names whose
once cleaned form gives both passes nothing to rewrite: when the
cleaned name does not contain the substring actions and the brace
regex finds no match or an empty captured suffix in it, a second
application leaves it unchanged; in general idempotence fails. -/
theorem C4_amended (s : List Char)
    (h1 : splitFirstSub ("actions".data) (clean_filename s) = none)
    (h2 : regexSuffix (clean_filename s) = none ∨ regexSuffix (clean_filename s) = some []) :
    clean_filename (clean_filename s) = clean_filename s := by
  set t := clean_filename s with ht
  have hA : actionsPass t = t := by
    unfold actionsPass
    rw [h1]
  show bracePass (actionsPass t) = t
  rw [hA]
  rcases h2 with h2 | h2
  · unfold bracePass
    rw [h2]
  · unfold bracePass
    rw [h2]
    exact pyReplace_nil t

/-- Claim C4 witness: a typical once cleaned name satisfies both side
conditions and a second cleaning leaves it unchanged. -/
theorem C4_witness :
    (splitFirstSub ("actions".data) (clean_filename ("messages_\x7bid\x7d_x".data)) = none
      ∧ (regexSuffix (clean_filename ("messages_\x7bid\x7d_x".data)) = none
          ∨ regexSuffix (clean_filename ("messages_\x7bid\x7d_x".data)) = some []))
    ∧ clean_filename (clean_filename ("messages_\x7bid\x7d_x".data))
        = clean_filename ("messages_\x7bid\x7d_x".data) :=
  ⟨⟨by decide, by decide⟩, C4_amended _ (by decide) (by decide)⟩

/-- Claim C5 counterexample: the name b followed by a braced x and a
trailing b has first brace token braced x and trailing text b; the
claim predicts the prefix b survives, but the replace of the trailing
text deletes every occurrence, so the leading b is deleted too. -/
theorem C5_cex :
    clean_filename ("b\x7bx\x7db".data) = ("\x7bx\x7d".data)
    ∧ clean_filename ("b\x7bx\x7db".data) ≠ ("b\x7bx\x7d".data) := by
  decide

/-- Claim C5 (amended): for a name of the shape P, then a brace token
with non empty interior x free of closing braces, then trailing text S
free of braces and newlines, where P holds no opening brace and the
actions pass does not apply, the second pass deletes every occurrence
of S from the whole name, not only the trailing one; the prefix P is
unchanged only when S does not occur inside P and the token. -/
theorem C5_amended (P x S : List Char) (hx : x ≠ []) (hxb : ('}' : Char) ∉ x)
    (hP : ('{' : Char) ∉ P) (hS1 : ('{' : Char) ∉ S) (hS2 : ('}' : Char) ∉ S)
    (hnl : ('\n' : Char) ∉ S)
    (ha : splitFirstSub ("actions".data) (P ++ '{' :: (x ++ '}' :: S)) = none) :
    clean_filename (P ++ '{' :: (x ++ '}' :: S))
      = pyReplace S (P ++ '{' :: (x ++ '}' :: S)) := by
  have hA : actionsPass (P ++ '{' :: (x ++ '}' :: S)) = P ++ '{' :: (x ++ '}' :: S) := by
    unfold actionsPass
    rw [ha]
  show bracePass (actionsPass _) = _
  rw [hA]
  obtain ⟨a, x', rfl⟩ := List.exists_cons_of_ne_nil hx
  have ha' : a ≠ '}' := fun h => hxb (h ▸ List.mem_cons_self a x')
  have hx' : ('}' : Char) ∉ x' := fun h => hxb (List.mem_cons_of_mem a h)
  have hbr : braceRest (P ++ '{' :: ((a :: x') ++ '}' :: S)) = some S := by
    rw [braceRest_append _ _ hP]
    simp [braceRest, braceInner, ha', braceClose_append x' S hx']
  have hr : regexSuffix (P ++ '{' :: ((a :: x') ++ '}' :: S)) = some S := by
    unfold regexSuffix
    rw [hbr]
    exact congrArg some (takeWhile_ne_of_not_mem '\n' S hnl)
  unfold bracePass
  rw [hr]

/-- Claim C5 witness: instantiating the amended statement at the
counterexample name shows the predicted full deletion. -/
theorem C5_witness :
    (("x".data) ≠ [] ∧ ('}' : Char) ∉ ("x".data) ∧ ('{' : Char) ∉ ("b".data)
      ∧ ('{' : Char) ∉ ("b".data) ∧ ('}' : Char) ∉ ("b".data) ∧ ('\n' : Char) ∉ ("b".data)
      ∧ splitFirstSub ("actions".data) (("b".data) ++ '{' :: (("x".data) ++ '}' :: ("b".data))) = none)
    ∧ clean_filename (("b".data) ++ '{' :: (("x".data) ++ '}' :: ("b".data)))
        = pyReplace ("b".data) (("b".data) ++ '{' :: (("x".data) ++ '}' :: ("b".data))) :=
  ⟨⟨by decide, by decide, by decide, by decide, by decide, by decide, by decide⟩,
   C5_amended ("b".data) ("x".data) ("b".data) (by decide) (by decide) (by decide)
     (by decide) (by decide) (by decide) (by decide)⟩

/-- Claim C6: a parse failure makes the generator return the commented
placeholder line naming the error instead of raising, the written page
is the fixed header, a blank line and that placeholder, and each file
of the batch produces its output from its own input alone, so the
failure does not disturb any other file. -/
theorem C6_error_isolated (e ref : List Char) :
    generate_sdk_code (Except.error e) ref = ("# Error generating SDK code: ".data) ++ e
    ∧ process_file_content 1 (Except.error e) ref
        = some (STANDARD_HEADER ++ ("\n\n".data) ++ (("# Error generating SDK code: ".data) ++ e))
    ∧ ∀ (inputs : List SampleParse) (c i : Nat),
        (batchFrom ref c inputs).get? i
          = (inputs.get? i).map (fun sp => process_file_content (c + i) sp ref) := by
  refine ⟨rfl, rfl, ?_⟩
  intro inputs
  induction inputs with
  | nil => intro c i; simp [batchFrom]
  | cons s rest ih =>
    intro c i
    cases i with
    | zero => simp [batchFrom]
    | succ j =>
      show (batchFrom ref (c + 1) rest).get? j = _
      rw [ih (c + 1) j]
      have hc : c + 1 + j = c + (j + 1) := by omega
      rw [hc]
      rfl

/-- Claim C7 counterexample: a post with a non empty body but an empty
path yields an empty joined resource path, so the renderer emits the
params dictionary yet no invocation line at all: the output contains
no spread of params, contradicting the claim for every sample. -/
theorem C7_cex :
    generate_sdk_code
        (Except.ok ⟨some ("post".data), some [], some ⟨some [(("to".data), PyVal.str ("+15550001111".data))]⟩⟩) []
      = ("params = \x7b\n    to=\x27+15550001111\x27\n\x7d\nprint(response)".data)
    ∧ containsSub ("**params".data)
        (generate_sdk_code
          (Except.ok ⟨some ("post".data), some [], some ⟨some [(("to".data), PyVal.str ("+15550001111".data))]⟩⟩) [])
      = false := by
  decide

/-- Claim C7 (amended): for every sample with a non empty request body
whose path yields a non empty joined resource identifier, the renderer
emits the params dictionary, quoting textual values and printing other
values natively, and the invocation line carries the spread of params;
without a non empty identifier no invocation line is emitted. -/
theorem C7_amended (s : Sample) (ref : List Char)
    (hb : sampleBody s ≠ [])
    (hr : resource_path_of (s.path.getD []) ≠ []) :
    ∃ call : List Char,
      generate_sdk_code (Except.ok s) ref =
        List.intercalate ("\n".data)
          ((params_of (s.path.getD [])).map param_assign_line
            ++ ((("params = \x7b".data) :: (sampleBody s).map body_param_line) ++ [("\x7d".data)])
            ++ [call] ++ [("print(response)".data)])
      ∧ ("**params)".data) <:+ call
      ∧ (∀ k w, body_param_line (k, PyVal.str w)
            = ("    ".data) ++ k ++ ("=\x27".data) ++ w ++ ("\x27".data))
      ∧ (∀ k v, PyVal.isStrVal v = false → body_param_line (k, v)
            = ("    ".data) ++ k ++ ("=".data) ++ pyStr v) := by
  have hbm : (sampleBody s).map body_param_line ≠ [] := by
    intro h
    exact hb (List.map_eq_nil_iff.mp h)
  by_cases hp : params_of (s.path.getD []) = []
  · refine ⟨("response = telnyx.".data) ++ hyphen_to_underscore (resource_path_of (s.path.getD []))
        ++ (".".data)
        ++ determine_sdk_method (pyLower ((s.method).getD [])) (s.path.getD [])
        ++ ("(**params)".data), ?_, ?_, ?_, ?_⟩
    · simp only [generate_sdk_code, generate_ok]
      rw [if_neg hb, if_neg hbm, if_neg hr, if_pos hp, if_neg hb]
    · refine ⟨("response = telnyx.".data) ++ hyphen_to_underscore (resource_path_of (s.path.getD []))
        ++ (".".data)
        ++ determine_sdk_method (pyLower ((s.method).getD [])) (s.path.getD [])
        ++ ("(".data), ?_⟩
      have hcat : ("(".data) ++ ("**params)".data) = ("(**params)".data) := by decide
      rw [List.append_assoc, hcat]
    · intro k w
      rfl
    · intro k v hv
      simp [body_param_line, hv]
  · refine ⟨("response = telnyx.".data) ++ hyphen_to_underscore (resource_path_of (s.path.getD []))
        ++ (".".data)
        ++ determine_sdk_method (pyLower ((s.method).getD [])) (s.path.getD [])
        ++ ("(".data) ++ param_str (params_of (s.path.getD []))
        ++ (", **params)".data), ?_, ?_, ?_, ?_⟩
    · simp only [generate_sdk_code, generate_ok]
      rw [if_neg hb, if_neg hbm, if_neg hr, if_neg hp, if_neg hb]
    · refine ⟨("response = telnyx.".data) ++ hyphen_to_underscore (resource_path_of (s.path.getD []))
        ++ (".".data)
        ++ determine_sdk_method (pyLower ((s.method).getD [])) (s.path.getD [])
        ++ ("(".data) ++ param_str (params_of (s.path.getD []))
        ++ (", ".data), ?_⟩
      have hcat : (", ".data) ++ ("**params)".data) = (", **params)".data) := by decide
      rw [List.append_assoc, hcat]
    · intro k w
      rfl
    · intro k v hv
      simp [body_param_line, hv]

/-- Claim C7 witness: the post to /messages with the textual body key
instantiates the amended statement. -/
theorem C7_witness :
    ∃ call : List Char,
      generate_sdk_code (Except.ok msgPostSample) [] =
        List.intercalate ("\n".data)
          ((params_of (msgPostSample.path.getD [])).map param_assign_line
            ++ ((("params = \x7b".data) :: (sampleBody msgPostSample).map body_param_line) ++ [("\x7d".data)])
            ++ [call] ++ [("print(response)".data)])
      ∧ ("**params)".data) <:+ call
      ∧ (∀ k w, body_param_line (k, PyVal.str w)
            = ("    ".data) ++ k ++ ("=\x27".data) ++ w ++ ("\x27".data))
      ∧ (∀ k v, PyVal.isStrVal v = false → body_param_line (k, v)
            = ("    ".data) ++ k ++ ("=".data) ++ pyStr v) :=
  C7_amended msgPostSample [] (by decide) (by decide)

/-- Claim C8: the content a run produces is a pure function of the
sample inputs and the reference corpus: the per task counter, the only
run dependent input, never changes any output because the file limit
is infinite, so two runs over the same inputs and corpus produce
identical output text for every file. -/
theorem C8_deterministic (inputs : List SampleParse) (ref : List Char) (c c' : Nat) :
    batchFrom ref c inputs = batchFrom ref c' inputs := by
  induction inputs generalizing c c' with
  | nil => rfl
  | cons s rest ih =>
    show process_file_content c s ref :: batchFrom ref (c + 1) rest
        = process_file_content c' s ref :: batchFrom ref (c' + 1) rest
    have hpc : process_file_content c s ref = process_file_content c' s ref := rfl
    rw [hpc, ih (c + 1) (c' + 1)]

/-- Claim C9: a present but empty request body mapping renders exactly
as an absent body: the generated text is identical, so no params
dictionary and no spread appear. -/
theorem C9_empty_body (m p : Option (List Char)) (ref : List Char) :
    generate_sdk_code (Except.ok ⟨m, p, some ⟨some []⟩⟩) ref
      = generate_sdk_code (Except.ok ⟨m, p, none⟩) ref := rfl

/-- Claim C10: method resolution is case insensitive in the verb: two
method strings with the same lowercase form resolve identically for
every path. -/
theorem C10_case_insensitive (m m' p : List Char) (h : pyLower m = pyLower m') :
    determine_sdk_method m p = determine_sdk_method m' p := by
  unfold determine_sdk_method
  rw [h]

/-- Claim C10 witness: the uppercase and lowercase get verbs agree on a
literal path. -/
theorem C10_witness :
    pyLower ("GET".data) = pyLower ("get".data)
    ∧ determine_sdk_method ("GET".data) ("/messages".data)
        = determine_sdk_method ("get".data) ("/messages".data) :=
  ⟨by decide, C10_case_insensitive ("GET".data) ("get".data) ("/messages".data) (by decide)⟩
